import Mathlib

/-!
Verification development for the superchat repository.

This file gives a shallow embedding, in Lean 4, of the parts of the
repository that the checked properties talk about:

* `superchat/core/staged_flow.py` — the `StagedFlowManager` state machine
  (individual 1:1 phase, promote/boot/restart, context assembly, transition
  to the team phase);
* `superchat/core/message_handler.py` together with
  `superchat/core/session.py` — the token-counter effect of one
  conversation round;
* `superchat/utils/stats.py` — the cost computation;
* `superchat/utils/parser.py` — the REPL input classifier.

Python dicts are embedded as association lists (key order = insertion
order, as in CPython); Python strings as `String`; the floating point
arithmetic of the cost computation as exact rationals `Rat`; the
agent/model objects as a record `AgentInfo` of the fields the flow manager
actually reads (`agent.name`, and the `model_name`/`display_name` that
`get_current_agent_info` derives from the fixed `agent_model_mapping` and
model configuration, both of which are set once at construction).
Places where the Python code could raise are embedded with `Except`:
an `Except.error` result marks a path on which the Python original would
raise an uncaught exception.
-/

namespace Superchat

/-- One entry of the fixed agent list together with the display data that
`get_current_agent_info` resolves for it (the mapping and the model
configuration are fixed at session setup, so the resolution is a pure
per-agent constant). -/
structure AgentInfo where
  name : String
  model_name : String
  display_name : String
deriving DecidableEq

/-- One captured (user_message, agent_response) pair, as appended to
`agent_transcripts[idx]['messages']` by `handle_individual_message`. -/
structure Exchange where
  user_message : String
  agent_response : String
deriving DecidableEq

/-- The per-agent transcript record created lazily by
`handle_individual_message` (the dict literal at staged_flow.py lines
119-125). -/
structure AgentTranscript where
  agent_name : String
  model_name : String
  display_name : String
  messages : List Exchange
  promoted : Bool
deriving DecidableEq

/-- The `agent_transcripts` dict, embedded as an association list from
agent index to transcript; list order is dict insertion order. -/
abbrev TMap := List (Nat × AgentTranscript)

/-- Dict membership / item access: first entry with the given key. -/
def lookupT (k : Nat) : TMap → Option AgentTranscript
  | [] => none
  | (k', t) :: rest => if k' = k then some t else lookupT k rest

/-- In-place update of the entry with the given key (Python mutates the
dict value object in place; key order is unchanged).  A miss leaves the
list unchanged, matching the `if idx in self.agent_transcripts` guards. -/
def modifyT (k : Nat) (f : AgentTranscript → AgentTranscript) : TMap → TMap
  | [] => []
  | (k', t) :: rest => if k' = k then (k', f t) :: rest else (k', t) :: modifyT k f rest

/-- `sorted(self.agent_transcripts.keys())`. -/
def sortedKeys (l : TMap) : List Nat :=
  List.insertionSort (· ≤ ·) (l.map Prod.fst)

/-- The mutable state of a `StagedFlowManager` (staged_flow.py `__init__`),
plus the immutable `agents` list it was constructed with. -/
structure FlowState where
  agents : List AgentInfo
  current_agent_index : Nat
  phase : String
  original_prompt : Option String
  awaiting_initial_question : Bool
  agent_transcripts : TMap
deriving DecidableEq

/-- `StagedFlowManager.__init__`: index 0, phase "individual", no prompt,
empty transcript dict. -/
def initState (agents : List AgentInfo) : FlowState :=
  { agents := agents
    current_agent_index := 0
    phase := "individual"
    original_prompt := none
    awaiting_initial_question := true
    agent_transcripts := [] }

/-- `has_more_agents`: `self.current_agent_index < len(self.agents)`. -/
def has_more_agents (s : FlowState) : Bool :=
  s.current_agent_index < s.agents.length

/-- `get_current_agent_info`: `None` when no current agent exists,
otherwise the info record of `self.agents[self.current_agent_index]`. -/
def get_current_agent_info (s : FlowState) : Option AgentInfo :=
  s.agents[s.current_agent_index]?

/-- The transcript dict value created on an agent's first handled message
(staged_flow.py lines 119-125). -/
def newTranscript (a : AgentInfo) : AgentTranscript :=
  { agent_name := a.name
    model_name := a.model_name
    display_name := a.display_name
    messages := []
    promoted := false }

/-- Outcome of the model invocation inside `handle_individual_message`,
i.e. of `MessageHandler.handle_single_agent_response`: a normal response,
a handled quota/credits error (the method returns `None`), or any other
exception (re-raised). -/
inductive CallResult where
  | ok (response : String)
  | quota
  | err
deriving DecidableEq

/-- How `handle_individual_message` terminates: a returned boolean, or an
exception propagating out of the model call. -/
inductive HandleOutcome where
  | returned (handled : Bool)
  | raised
deriving DecidableEq

/-- `handle_individual_message` (staged_flow.py lines 92-137).  State
mutations happen in source order: the original prompt is captured first,
the transcript entry is created lazily next, and only a successful model
call appends an exchange; a re-raised exception leaves the two earlier
mutations in place. -/
def handle_individual_message (s : FlowState) (message : String) (call : CallResult) :
    FlowState × HandleOutcome :=
  if has_more_agents s then
    match s.agents[s.current_agent_index]? with
    | none => (s, .returned false)
    | some a =>
      let s1 := if s.original_prompt = none then
          { s with original_prompt := some message, awaiting_initial_question := false }
        else s
      let s2 := if lookupT s.current_agent_index s1.agent_transcripts = none then
          { s1 with agent_transcripts :=
              s1.agent_transcripts ++ [(s.current_agent_index, newTranscript a)] }
        else s1
      match call with
      | .ok resp =>
        let ex : Exchange := { user_message := message, agent_response := resp }
        let f := fun (t : AgentTranscript) => { t with messages := t.messages ++ [ex] }
        ({ s2 with agent_transcripts := modifyT s.current_agent_index f s2.agent_transcripts },
         .returned true)
      | .quota => (s2, .returned true)
      | .err => (s2, .raised)
  else (s, .returned false)

/-- The AutoGen team object built by `create_team_with_context`:
a `RoundRobinGroupChat` of the promoted agents with
`max_turns = len(promoted_agents)`. -/
structure Team where
  participants : List AgentInfo
  max_turns : Nat
deriving DecidableEq

/-- The heterogeneous result dicts returned by the flow-manager
operations; absent dict keys are `none`. -/
structure OpResult where
  success : Bool
  message : String
  phase : Option String := none
  next_phase : Option String := none
  next_agent : Option AgentInfo := none
  current_agent : Option AgentInfo := none
  all_promoted : Option Bool := none
  all_processed : Option Bool := none
  all_booted : Option Bool := none
  should_auto_send : Option Bool := none
  remaining_agents : Option Nat := none
  promoted_count : Option Nat := none
  promoted_agents : Option (List AgentInfo) := none
  assembled_context : Option String := none
  context_length : Option Nat := none
  team : Option Team := none
deriving DecidableEq

/-- `promote_current_agent` (staged_flow.py lines 139-189).  The
`Except.error` branch marks the spot where the Python code would crash
dereferencing a `None` agent info; it is provably unreachable. -/
def promote_current_agent (s : FlowState) : FlowState × Except String OpResult :=
  if has_more_agents s then
    match get_current_agent_info s with
    | none =>
      (s, .ok { success := false, message := "Could not get current agent info",
                phase := some s.phase })
    | some info =>
      let f := fun (t : AgentTranscript) => { t with promoted := true }
      let s1 := { s with agent_transcripts := modifyT s.current_agent_index f s.agent_transcripts }
      let s2 := { s1 with current_agent_index := s.current_agent_index + 1 }
      if has_more_agents s2 then
        match get_current_agent_info s2 with
        | none => (s2, .error "TypeError: current agent info is None")
        | some nextInfo =>
          let m := "Promoted " ++ info.display_name ++ ". Next: " ++ nextInfo.display_name
          (s2, .ok { success := true, message := m, phase := some s2.phase,
                     next_agent := some nextInfo, all_promoted := some false,
                     should_auto_send := some true })
      else
        let m := "Promoted " ++ info.display_name ++ ". All agents promoted."
        (s2, .ok { success := true, message := m, phase := some "completing",
                   next_phase := some "team", all_promoted := some true })
  else
    (s, .ok { success := false, message := "No current agent to promote",
              phase := some s.phase })

/-- `sum(1 for transcript in self.agent_transcripts.values() if transcript['promoted'])`
as computed inside `boot_current_agent`. -/
def promotedCountAll (l : TMap) : Nat :=
  (l.filter (fun kt => kt.2.promoted)).length

/-- `boot_current_agent` (staged_flow.py lines 224-283). -/
def boot_current_agent (s : FlowState) : FlowState × Except String OpResult :=
  if has_more_agents s then
    match get_current_agent_info s with
    | none =>
      (s, .ok { success := false, message := "Could not get current agent info",
                phase := some s.phase })
    | some info =>
      let f := fun (t : AgentTranscript) => { t with promoted := false }
      let s1 := { s with agent_transcripts := modifyT s.current_agent_index f s.agent_transcripts }
      let s2 := { s1 with current_agent_index := s.current_agent_index + 1 }
      if has_more_agents s2 then
        match get_current_agent_info s2 with
        | none => (s2, .error "TypeError: current agent info is None")
        | some nextInfo =>
          let m := "Booted " ++ info.display_name ++ ". Next: " ++ nextInfo.display_name
          (s2, .ok { success := true, message := m, phase := some s2.phase,
                     next_agent := some nextInfo, all_processed := some false,
                     should_auto_send := some true })
      else
        let pc := promotedCountAll s2.agent_transcripts
        if pc = 0 then
          let m := "Booted " ++ info.display_name ++ ". No agents promoted - cannot start team debate."
          (s2, .ok { success := true, message := m, phase := some "completing",
                     all_booted := some true })
        else
          let m := "Booted " ++ info.display_name ++ ". Ready for team debate with " ++ toString pc ++ " promoted agents."
          (s2, .ok { success := true, message := m, phase := some "completing",
                     next_phase := some "team", all_processed := some true })
  else
    (s, .ok { success := false, message := "No current agent to boot",
              phase := some s.phase })

/-- `restart_current_agent` (staged_flow.py lines 285-316). -/
def restart_current_agent (s : FlowState) : FlowState × Except String OpResult :=
  if has_more_agents s then
    match get_current_agent_info s with
    | none =>
      (s, .ok { success := false, message := "Could not get current agent info",
                phase := some s.phase })
    | some info =>
      let f := fun (t : AgentTranscript) => { t with messages := ([] : List Exchange), promoted := false }
      let m := "Restarted conversation with " ++ info.display_name ++ ". Transcript cleared."
      ({ s with agent_transcripts := modifyT s.current_agent_index f s.agent_transcripts },
       .ok { success := true, message := m, phase := some s.phase,
             current_agent := some info })
  else
    (s, .ok { success := false, message := "No current agent to restart",
              phase := some s.phase })

/-- `get_promoted_agents` (staged_flow.py lines 352-366): promoted
transcripts in ascending key order, mapped to the agent objects, skipping
indices outside the agent list exactly as the source's bounds check does. -/
def get_promoted_agents (s : FlowState) : List AgentInfo :=
  (sortedKeys s.agent_transcripts).filterMap (fun k =>
    match lookupT k s.agent_transcripts with
    | some t => if t.promoted then s.agents[k]? else none
    | none => none)

/-- `"Original Prompt:\n{p}\n"`, the first element of `context_parts`. -/
def promptPart (p : String) : String := "Original Prompt:\n" ++ p ++ "\n"

/-- The closing element of `context_parts`. -/
def debateMarker : String := "\n--- Begin Team Debate ---"

/-- The two lines appended to `context_parts` for one exchange. -/
def exchangeLines (display_name : String) (e : Exchange) : List String :=
  ["\nUser: " ++ e.user_message, display_name ++ ": " ++ e.agent_response]

/-- The `context_parts` contribution of one transcript: nothing unless it
is promoted and non-empty (the `continue` at staged_flow.py line 337),
otherwise a header followed by the exchange lines. -/
def transcriptSection (t : AgentTranscript) : List String :=
  if t.promoted && !t.messages.isEmpty then
    ("\n--- " ++ t.display_name ++ " Conversation ---") ::
      t.messages.flatMap (exchangeLines t.display_name)
  else []

/-- The full `context_parts` list built by `assemble_comprehensive_context`
for a truthy original prompt `p`. -/
def contextParts (s : FlowState) (p : String) : List String :=
  promptPart p ::
    ((sortedKeys s.agent_transcripts).flatMap (fun k =>
      match lookupT k s.agent_transcripts with
      | some t => transcriptSection t
      | none => [])) ++ [debateMarker]

/-- `assemble_comprehensive_context` (staged_flow.py lines 318-350).
`if not self.original_prompt` is truthiness: both `None` and the empty
string short-circuit to `""`. -/
def assemble_comprehensive_context (s : FlowState) : String :=
  match s.original_prompt with
  | none => ""
  | some p => if p = "" then "" else String.intercalate "\n" (contextParts s p)

/-- `create_team_with_context` (staged_flow.py lines 368-385): raises
`ValueError` below two promoted agents, otherwise builds the round-robin
team with `max_turns` equal to the number of promoted agents. -/
def create_team_with_context (promoted_agents : List AgentInfo) :
    Except String Team :=
  if promoted_agents.isEmpty || promoted_agents.length < 2 then
    .error "Need at least 2 promoted agents to create team"
  else
    .ok { participants := promoted_agents, max_turns := promoted_agents.length }

/-- `transition_to_team_phase` (staged_flow.py lines 387-444). -/
def transition_to_team_phase (s : FlowState) : FlowState × Except String OpResult :=
  if s.phase = "team" then
    (s, .ok { success := false, message := "Already in team phase", phase := some s.phase })
  else if has_more_agents s then
    (s, .ok { success := false,
              message := "Cannot transition to team phase - agents still need promotion",
              phase := some s.phase,
              remaining_agents := some (s.agents.length - s.current_agent_index) })
  else
    let promoted := get_promoted_agents s
    if promoted.isEmpty then
      (s, .ok { success := false,
                message := "Cannot start team debate - no agents were promoted",
                phase := some s.phase })
    else if promoted.length < 2 then
      (s, .ok { success := false,
                message := "Cannot start team debate - need at least 2 promoted agents",
                phase := some s.phase, promoted_count := some promoted.length })
    else
      let ctx := assemble_comprehensive_context s
      match create_team_with_context promoted with
      | .error e => (s, .error e)
      | .ok team =>
        let m := "Transitioned to team debate phase with " ++ toString promoted.length ++ " agents"
        ({ s with phase := "team" },
         .ok { success := true, message := m, phase := some "team",
               promoted_agents := some promoted, assembled_context := some ctx,
               context_length := some ctx.length, team := some team })

/-- `auto_send_original_prompt` (staged_flow.py lines 191-204); the
`if self.original_prompt` guard is truthiness, so an empty stored prompt
is never auto-replayed. -/
def auto_send_original_prompt (s : FlowState) (call : CallResult) : FlowState × Bool :=
  match s.original_prompt with
  | some p =>
    if p ≠ "" && has_more_agents s then
      ((handle_individual_message s p call).1, true)
    else (s, false)
  | none => (s, false)

/-- One externally triggered operation on the flow manager, with the
user-supplied text and the model-call outcome as oracle inputs. -/
inductive Op where
  | msg (text : String) (call : CallResult)
  | promote
  | boot
  | restart
  | autoSend (call : CallResult)
  | transition
deriving DecidableEq

/-- The state effect of one operation. -/
def applyOp (s : FlowState) : Op → FlowState
  | .msg t c => (handle_individual_message s t c).1
  | .promote => (promote_current_agent s).1
  | .boot => (boot_current_agent s).1
  | .restart => (restart_current_agent s).1
  | .autoSend c => (auto_send_original_prompt s c).1
  | .transition => (transition_to_team_phase s).1

/-- The state after a sequence of operations. -/
def applyOps (s : FlowState) (ops : List Op) : FlowState :=
  ops.foldl applyOp s

/-- The four counters of `SessionConfig` touched by `add_usage_data`
(session.py lines 119-125). -/
structure SessionCounters where
  total_input_tokens : Nat
  total_output_tokens : Nat
  total_tokens : Nat
  conversation_rounds : Nat
deriving DecidableEq

/-- A usage dict as passed to `add_usage_data`; `dict.get(key, 0)` reads a
possibly absent key with default 0. -/
structure UsageData where
  prompt_tokens : Option Nat := none
  completion_tokens : Option Nat := none
  total_tokens : Option Nat := none
deriving DecidableEq

/-- `SessionConfig.add_usage_data` (session.py lines 119-125). -/
def add_usage_data (c : SessionCounters) (u : UsageData) : SessionCounters :=
  { total_input_tokens := c.total_input_tokens + u.prompt_tokens.getD 0
    total_output_tokens := c.total_output_tokens + u.completion_tokens.getD 0
    total_tokens := c.total_tokens + u.total_tokens.getD 0
    conversation_rounds := c.conversation_rounds + 1 }

/-- Outcome of one `agent.run`/`team.run` invocation inside
`MessageHandler.handle_single_agent_response`: success with the usage data
extracted from the task result (which can be `None` when no tokens were
reported), a handled OpenRouter quota/credits error (the method returns
`None` before any usage is recorded), or any other exception (re-raised
before any usage is recorded). -/
inductive InvokeOutcome where
  | ok (usage : Option UsageData)
  | quotaError
  | invokeError
deriving DecidableEq

/-- The counter effect of one conversation round
(`MessageHandler.handle_single_agent_response`, message_handler.py lines
23-72): only the successful path with reported usage reaches
`self.config.add_usage_data(usage_data)`. -/
def round_counters (c : SessionCounters) (o : InvokeOutcome) : SessionCounters :=
  match o with
  | .ok (some u) => add_usage_data c u
  | .ok none => c
  | .quotaError => c
  | .invokeError => c

/-- The counters after a sequence of rounds. -/
def run_rounds (c : SessionCounters) (os : List InvokeOutcome) : SessionCounters :=
  os.foldl round_counters c

/-- A model configuration as consumed by the cost utilities; `.get` with
default 0 for the two per-million rates (stats.py lines 4-10).  Python
floats are embedded as exact rationals. -/
structure ModelConfig where
  input_cost : Rat := 0
  output_cost : Rat := 0
deriving DecidableEq

/-- `calculate_model_cost` (stats.py lines 4-10). -/
def calculate_model_cost (model_config : ModelConfig) (input_tokens output_tokens : Rat) : Rat :=
  (input_tokens / 1000000) * model_config.input_cost +
    (output_tokens / 1000000) * model_config.output_cost

/-- The two token totals of the stats dict that `calculate_total_cost`
reads. -/
structure StatsRecord where
  total_input_tokens : Rat
  total_output_tokens : Rat
deriving DecidableEq

/-- `calculate_total_cost` (stats.py lines 14-35), total-cost part:
models without a configuration are skipped, configured ones are charged
for an even `1/len(models)` share of both token totals. -/
def calculate_total_cost (stats : StatsRecord) (models : List String)
    (get_model_config : String → Option ModelConfig) : Rat :=
  models.foldl (fun total_cost model_name =>
    match get_model_config model_name with
    | some model_config =>
      total_cost + calculate_model_cost model_config
        (stats.total_input_tokens / (models.length : Rat))
        (stats.total_output_tokens / (models.length : Rat))
    | none => total_cost) 0

/-- The classification returned by `parse_input` (parser.py lines 3-44),
one constructor per result-dict shape. -/
inductive ParseResult where
  | empty (message : String)
  | command (command : String) (args : List String) (raw : String)
  | message (message : String) (raw : String)
deriving DecidableEq

/-- Python `str.split()` with no separator: split on whitespace runs,
discarding empty pieces. -/
def pySplit (s : String) : List String :=
  (s.split Char.isWhitespace).filter (fun t => t ≠ "")

/-- `parse_input` (parser.py lines 3-44).  `not user_input or not
user_input.strip()` collapses to "the trimmed input is empty".  On the
command path `parts` is provably non-empty (the trimmed input is a
non-empty string starting with the non-whitespace character "/"), so
`parts[0]` never raises; `headD ""` reads that guaranteed first token. -/
def parse_input (user_input : String) : ParseResult :=
  if user_input.trim = "" then .empty user_input
  else
    let stripped_input := user_input.trim
    if stripped_input.startsWith "/" then
      let parts := pySplit stripped_input
      .command ((parts.headD "").drop 1) parts.tail user_input
    else .message stripped_input user_input

/-- The transcript dict reassembled in the source's iteration order
`sorted(keys)`, pairing each sorted key with its dict value; used to state
properties of `assemble_comprehensive_context`. -/
def orderedEntries (s : FlowState) : TMap :=
  (sortedKeys s.agent_transcripts).filterMap
    (fun k => (lookupT k s.agent_transcripts).map (fun t => (k, t)))

/-- A concrete agent used to instantiate proved statements. -/
def exAgentA : AgentInfo := ⟨"agent_a", "openai/gpt-4o", "GPT-4o"⟩

/-- A second concrete agent used to instantiate proved statements. -/
def exAgentB : AgentInfo := ⟨"agent_b", "anthropic/claude", "Claude"⟩

/-- A concrete two-agent state in which the first agent has answered one
message; used to instantiate proved statements. -/
def exDuo : FlowState :=
  (handle_individual_message (initState [exAgentA, exAgentB]) "What is entropy?"
    (.ok "Disorder.")).1

/-- A concrete one-agent state in which the only exchange failed with a
quota error (creating an empty transcript entry) and the agent was then
promoted: its transcript is promoted but has no messages. -/
def exQuotaPromoted : FlowState :=
  applyOps (initState [exAgentA]) [Op.msg "q" CallResult.quota, Op.promote]

/-- A concrete two-agent state in which both agents answered the original
prompt and both were promoted. -/
def exDuoPromoted : FlowState :=
  applyOps (initState [exAgentA, exAgentB])
    [Op.msg "What is entropy?" (CallResult.ok "Disorder."), Op.promote,
     Op.autoSend (CallResult.ok "Chaos."), Op.promote]

/-! Association-list (dict) lemmas. -/

theorem lookupT_modifyT_self (k : Nat) (f : AgentTranscript → AgentTranscript) :
    ∀ l : TMap, lookupT k (modifyT k f l) = (lookupT k l).map f := by
  intro l
  induction l with
  | nil => simp [lookupT, modifyT]
  | cons kt rest ih =>
    obtain ⟨k', t⟩ := kt
    by_cases h : k' = k
    · simp [lookupT, modifyT, h]
    · simp [lookupT, modifyT, h, ih]

theorem lookupT_modifyT_ne (j k : Nat) (hjk : j ≠ k) (f : AgentTranscript → AgentTranscript) :
    ∀ l : TMap, lookupT j (modifyT k f l) = lookupT j l := by
  intro l
  induction l with
  | nil => simp [lookupT, modifyT]
  | cons kt rest ih =>
    obtain ⟨k', t⟩ := kt
    by_cases h : k' = k
    · subst h
      have hkj : ¬(k' = j) := fun h' => hjk h'.symm
      simp [lookupT, modifyT, hkj]
    · by_cases h2 : k' = j
      · subst h2
        simp [lookupT, modifyT, h]
      · simp [lookupT, modifyT, h, h2, ih]

theorem modifyT_of_lookupT_none (k : Nat) (f : AgentTranscript → AgentTranscript) :
    ∀ l : TMap, lookupT k l = none → modifyT k f l = l := by
  intro l
  induction l with
  | nil => simp [modifyT]
  | cons kt rest ih =>
    obtain ⟨k', t⟩ := kt
    intro h
    by_cases hk : k' = k
    · simp [lookupT, hk] at h
    · simp [lookupT, hk] at h
      simp [modifyT, hk, ih h]

/-! Structural lemmas about the flow operations. -/

theorem has_more_iff (s : FlowState) :
    has_more_agents s = true ↔ s.current_agent_index < s.agents.length := by
  simp [has_more_agents]

theorem info_of_has_more (s : FlowState) (h : has_more_agents s = true) :
    ∃ a, get_current_agent_info s = some a := by
  have hlt : s.current_agent_index < s.agents.length := (has_more_iff s).1 h
  exact ⟨s.agents.get ⟨_, hlt⟩, by simp [get_current_agent_info, List.getElem?_eq_getElem hlt]⟩

theorem promote_fst_of_has_more (s : FlowState) (h : has_more_agents s = true) :
    (promote_current_agent s).1 =
      { s with
        agent_transcripts :=
          modifyT s.current_agent_index (fun t => { t with promoted := true })
            s.agent_transcripts,
        current_agent_index := s.current_agent_index + 1 } := by
  obtain ⟨a, ha⟩ := info_of_has_more s h
  simp only [promote_current_agent, h, ha, if_true]
  split
  · split <;> rfl
  · rfl

theorem boot_fst_of_has_more (s : FlowState) (h : has_more_agents s = true) :
    (boot_current_agent s).1 =
      { s with
        agent_transcripts :=
          modifyT s.current_agent_index (fun t => { t with promoted := false })
            s.agent_transcripts,
        current_agent_index := s.current_agent_index + 1 } := by
  obtain ⟨a, ha⟩ := info_of_has_more s h
  simp only [boot_current_agent, h, ha, if_true]
  split
  · split <;> rfl
  · split <;> rfl

theorem restart_fst_of_has_more (s : FlowState) (h : has_more_agents s = true) :
    (restart_current_agent s).1 =
      { s with
        agent_transcripts :=
          modifyT s.current_agent_index (fun t => { t with messages := [], promoted := false })
            s.agent_transcripts } := by
  obtain ⟨a, ha⟩ := info_of_has_more s h
  simp only [restart_current_agent, h, ha, if_true]

theorem promote_fst_of_no_agent (s : FlowState) (h : has_more_agents s = false) :
    (promote_current_agent s).1 = s := by
  simp [promote_current_agent, h]

theorem boot_fst_of_no_agent (s : FlowState) (h : has_more_agents s = false) :
    (boot_current_agent s).1 = s := by
  simp [boot_current_agent, h]

theorem restart_fst_of_no_agent (s : FlowState) (h : has_more_agents s = false) :
    (restart_current_agent s).1 = s := by
  simp [restart_current_agent, h]

theorem handle_fst_fields (s : FlowState) (m : String) (c : CallResult) :
    ((handle_individual_message s m c).1).current_agent_index = s.current_agent_index
    ∧ ((handle_individual_message s m c).1).phase = s.phase
    ∧ ((handle_individual_message s m c).1).agents = s.agents := by
  cases c <;> (simp only [handle_individual_message]; repeat' split) <;> simp_all

theorem handle_fst_prompt (s : FlowState) (m : String) (c : CallResult) (p : String)
    (h : s.original_prompt = some p) :
    ((handle_individual_message s m c).1).original_prompt = some p := by
  cases c <;> (simp only [handle_individual_message]; repeat' split) <;> simp_all

theorem transition_fst (s : FlowState) :
    (transition_to_team_phase s).1 = s ∨
      ((transition_to_team_phase s).1 = { s with phase := "team" }
        ∧ s.phase ≠ "team" ∧ has_more_agents s = false
        ∧ 2 ≤ (get_promoted_agents s).length) := by
  unfold transition_to_team_phase
  split
  · exact Or.inl rfl
  · split
    · exact Or.inl rfl
    · dsimp only
      split
      · exact Or.inl rfl
      · split
        · exact Or.inl rfl
        · have hteam : ¬s.phase = "team" := by assumption
          have hmore : ¬has_more_agents s = true := by assumption
          have hempty : ¬(get_promoted_agents s).isEmpty = true := by assumption
          have hlt : ¬(get_promoted_agents s).length < 2 := by assumption
          have hcreate : ∃ tm, create_team_with_context (get_promoted_agents s) =
              .ok tm := by
            simp only [create_team_with_context]
            split
            · rename_i hcond
              rw [Bool.or_eq_true] at hcond
              rcases hcond with h1 | h2
              · exact absurd h1 hempty
              · exact absurd (of_decide_eq_true h2) hlt
            · exact ⟨_, rfl⟩
          obtain ⟨tm, hcreate⟩ := hcreate
          rw [hcreate]
          exact Or.inr ⟨rfl, hteam, eq_false_of_ne_true hmore, by omega⟩

theorem promote_fst_phase (s : FlowState) : ((promote_current_agent s).1).phase = s.phase := by
  cases hh : has_more_agents s with
  | true => rw [promote_fst_of_has_more s hh]
  | false => rw [promote_fst_of_no_agent s hh]

theorem boot_fst_phase (s : FlowState) : ((boot_current_agent s).1).phase = s.phase := by
  cases hh : has_more_agents s with
  | true => rw [boot_fst_of_has_more s hh]
  | false => rw [boot_fst_of_no_agent s hh]

theorem restart_fst_phase (s : FlowState) : ((restart_current_agent s).1).phase = s.phase := by
  cases hh : has_more_agents s with
  | true => rw [restart_fst_of_has_more s hh]
  | false => rw [restart_fst_of_no_agent s hh]

theorem autoSend_fst_fields (s : FlowState) (c : CallResult) :
    ((auto_send_original_prompt s c).1).current_agent_index = s.current_agent_index
    ∧ ((auto_send_original_prompt s c).1).phase = s.phase
    ∧ ((auto_send_original_prompt s c).1).agents = s.agents := by
  unfold auto_send_original_prompt
  cases hp : s.original_prompt with
  | none => exact ⟨rfl, rfl, rfl⟩
  | some p =>
    dsimp only
    split
    · exact handle_fst_fields s p c
    · exact ⟨rfl, rfl, rfl⟩

/-- No operation ever changes the agent list. -/
theorem applyOp_agents (s : FlowState) (op : Op) : (applyOp s op).agents = s.agents := by
  cases op with
  | msg m c => exact (handle_fst_fields s m c).2.2
  | promote =>
    show ((promote_current_agent s).1).agents = s.agents
    cases hh : has_more_agents s with
    | true => rw [promote_fst_of_has_more s hh]
    | false => rw [promote_fst_of_no_agent s hh]
  | boot =>
    show ((boot_current_agent s).1).agents = s.agents
    cases hh : has_more_agents s with
    | true => rw [boot_fst_of_has_more s hh]
    | false => rw [boot_fst_of_no_agent s hh]
  | restart =>
    show ((restart_current_agent s).1).agents = s.agents
    cases hh : has_more_agents s with
    | true => rw [restart_fst_of_has_more s hh]
    | false => rw [restart_fst_of_no_agent s hh]
  | autoSend c => exact (autoSend_fst_fields s c).2.2
  | transition =>
    show ((transition_to_team_phase s).1).agents = s.agents
    rcases transition_fst s with h | ⟨h, _⟩ <;> rw [h]

/-- Per-operation index effect: unchanged, or incremented by exactly one
by a promote/boot that had a current agent. -/
theorem applyOp_index (s : FlowState) (op : Op) :
    (applyOp s op).current_agent_index = s.current_agent_index
    ∨ ((op = Op.promote ∨ op = Op.boot) ∧ has_more_agents s = true
        ∧ (applyOp s op).current_agent_index = s.current_agent_index + 1) := by
  cases op with
  | msg m c => exact Or.inl (handle_fst_fields s m c).1
  | promote =>
    show _ ∨ _
    cases hh : has_more_agents s with
    | true =>
      refine Or.inr ⟨Or.inl rfl, rfl, ?_⟩
      show ((promote_current_agent s).1).current_agent_index = _
      rw [promote_fst_of_has_more s hh]
    | false =>
      refine Or.inl ?_
      show ((promote_current_agent s).1).current_agent_index = _
      rw [promote_fst_of_no_agent s hh]
  | boot =>
    cases hh : has_more_agents s with
    | true =>
      refine Or.inr ⟨Or.inr rfl, rfl, ?_⟩
      show ((boot_current_agent s).1).current_agent_index = _
      rw [boot_fst_of_has_more s hh]
    | false =>
      refine Or.inl ?_
      show ((boot_current_agent s).1).current_agent_index = _
      rw [boot_fst_of_no_agent s hh]
  | restart =>
    refine Or.inl ?_
    show ((restart_current_agent s).1).current_agent_index = _
    cases hh : has_more_agents s with
    | true => rw [restart_fst_of_has_more s hh]
    | false => rw [restart_fst_of_no_agent s hh]
  | autoSend c => exact Or.inl (autoSend_fst_fields s c).1
  | transition =>
    refine Or.inl ?_
    show ((transition_to_team_phase s).1).current_agent_index = _
    rcases transition_fst s with h | ⟨h, _⟩ <;> rw [h]

/-- Per-operation phase effect: unchanged, or flipped to "team" by a
successful transition. -/
theorem applyOp_phase (s : FlowState) (op : Op) :
    (applyOp s op).phase = s.phase
    ∨ (op = Op.transition ∧ s.phase ≠ "team" ∧ (applyOp s op).phase = "team"
        ∧ has_more_agents s = false ∧ 2 ≤ (get_promoted_agents s).length) := by
  cases op with
  | msg m c => exact Or.inl (handle_fst_fields s m c).2.1
  | promote => exact Or.inl (promote_fst_phase s)
  | boot => exact Or.inl (boot_fst_phase s)
  | restart => exact Or.inl (restart_fst_phase s)
  | autoSend c => exact Or.inl (autoSend_fst_fields s c).2.1
  | transition =>
    rcases transition_fst s with h | ⟨h, hteam, hmore, hlen⟩
    · refine Or.inl ?_
      show ((transition_to_team_phase s).1).phase = _
      rw [h]
    · refine Or.inr ⟨rfl, hteam, ?_, hmore, hlen⟩
      show ((transition_to_team_phase s).1).phase = _
      rw [h]

/-- The index-bounded-by-agent-count and phase-in-range invariants are
preserved by every operation sequence. -/
theorem applyOps_inv (ops : List Op) : ∀ s : FlowState,
    s.current_agent_index ≤ s.agents.length →
    (s.phase = "individual" ∨ s.phase = "team") →
    (applyOps s ops).current_agent_index ≤ (applyOps s ops).agents.length
    ∧ ((applyOps s ops).phase = "individual" ∨ (applyOps s ops).phase = "team") := by
  induction ops with
  | nil =>
    intro s h1 h2
    exact ⟨h1, h2⟩
  | cons op rest ih =>
    intro s h1 h2
    have hstep1 : (applyOp s op).current_agent_index ≤ (applyOp s op).agents.length := by
      rw [applyOp_agents s op]
      rcases applyOp_index s op with h | ⟨_, hmore, h⟩
      · omega
      · have := (has_more_iff s).1 hmore
        omega
    have hstep2 : (applyOp s op).phase = "individual" ∨ (applyOp s op).phase = "team" := by
      rcases applyOp_phase s op with h | ⟨_, _, h, _, _⟩
      · rw [h]; exact h2
      · exact Or.inr h
    simpa [applyOps, List.foldl_cons] using ih (applyOp s op) hstep1 hstep2

/-! Claim theorems: restart, boot, promote-without-messages. -/

/-- Claim C6: `restart_current_agent`, called while a current agent
exists, empties only that agent's message list and resets only that
agent's promoted flag, without advancing `current_agent_index`; every
other agent's transcript entry, the phase, and `original_prompt` are
unchanged, and the call reports success without raising. -/
theorem C6_restart_frame (s : FlowState) (h : has_more_agents s = true) :
    ((restart_current_agent s).1).current_agent_index = s.current_agent_index
    ∧ ((restart_current_agent s).1).phase = s.phase
    ∧ ((restart_current_agent s).1).original_prompt = s.original_prompt
    ∧ ((restart_current_agent s).1).agents = s.agents
    ∧ (∀ j, j ≠ s.current_agent_index →
        lookupT j ((restart_current_agent s).1).agent_transcripts
          = lookupT j s.agent_transcripts)
    ∧ lookupT s.current_agent_index ((restart_current_agent s).1).agent_transcripts
        = (lookupT s.current_agent_index s.agent_transcripts).map
            (fun t => { t with messages := [], promoted := false })
    ∧ ∃ r, (restart_current_agent s).2 = Except.ok r ∧ r.success = true := by
  rw [restart_fst_of_has_more s h]
  obtain ⟨a, ha⟩ := info_of_has_more s h
  refine ⟨rfl, rfl, rfl, rfl, ?_, ?_, ?_⟩
  · intro j hj
    exact lookupT_modifyT_ne j _ hj _ _
  · exact lookupT_modifyT_self _ _ _
  · simp [restart_current_agent, h, ha]

/-- Claim C6 witness: restarting the first agent of the concrete
two-agent state clears its transcript entry in place. -/
theorem C6_restart_frame_witness :
    has_more_agents exDuo = true
    ∧ lookupT 0 ((restart_current_agent exDuo).1).agent_transcripts
        = (lookupT 0 exDuo.agent_transcripts).map
            (fun t => { t with messages := [], promoted := false }) := by
  have h : has_more_agents exDuo = true := by decide
  have hc := C6_restart_frame exDuo h
  have h0 : exDuo.current_agent_index = 0 := by decide
  refine ⟨h, ?_⟩
  rw [← h0]
  exact hc.2.2.2.2.2.1

/-- Claim C7: `boot_current_agent` advances `current_agent_index` by one
exactly like `promote_current_agent`, leaves the current agent's promoted
flag `false` (and other entries untouched), and when the boot empties the
remaining agent queue, the returned result distinguishes zero promoted
transcripts (`all_booted`, no `next_phase`) from at least one promoted
transcript (`next_phase = "team"`, `all_processed`). -/
theorem C7_boot_advances_and_distinguishes (s : FlowState) (h : has_more_agents s = true) :
    ((boot_current_agent s).1).current_agent_index = s.current_agent_index + 1
    ∧ ((promote_current_agent s).1).current_agent_index = s.current_agent_index + 1
    ∧ lookupT s.current_agent_index ((boot_current_agent s).1).agent_transcripts
        = (lookupT s.current_agent_index s.agent_transcripts).map
            (fun t => { t with promoted := false })
    ∧ (∀ j, j ≠ s.current_agent_index →
        lookupT j ((boot_current_agent s).1).agent_transcripts
          = lookupT j s.agent_transcripts)
    ∧ ∃ r, (boot_current_agent s).2 = Except.ok r ∧ r.success = true
      ∧ (s.current_agent_index + 1 = s.agents.length →
          (promotedCountAll ((boot_current_agent s).1).agent_transcripts = 0 →
            r.all_booted = some true ∧ r.next_phase = none)
        ∧ (promotedCountAll ((boot_current_agent s).1).agent_transcripts ≠ 0 →
            r.next_phase = some "team" ∧ r.all_processed = some true)) := by
  obtain ⟨a, ha⟩ := info_of_has_more s h
  have hfst := boot_fst_of_has_more s h
  refine ⟨by rw [hfst], by rw [promote_fst_of_has_more s h], ?_, ?_, ?_⟩
  · rw [hfst]
    exact lookupT_modifyT_self _ _ _
  · intro j hj
    rw [hfst]
    exact lookupT_modifyT_ne j _ hj _ _
  · rw [hfst]
    simp only [boot_current_agent, h, ha, if_true]
    split
    · rename_i h2
      obtain ⟨b, hb⟩ := info_of_has_more _ h2
      rw [hb]
      refine ⟨_, rfl, rfl, ?_⟩
      intro hlen
      have : s.current_agent_index + 1 < s.agents.length := (has_more_iff _).1 h2
      omega
    · rename_i h2
      split
      · rename_i hpc
        exact ⟨_, rfl, rfl, fun _ => ⟨fun _ => ⟨rfl, rfl⟩, fun hne => absurd hpc hne⟩⟩
      · rename_i hpc
        exact ⟨_, rfl, rfl, fun _ => ⟨fun h0 => absurd h0 hpc, fun _ => ⟨rfl, rfl⟩⟩⟩

/-- Claim C7 witness: booting the messaged first agent of the concrete
two-agent state advances the index and clears the promoted flag. -/
theorem C7_boot_witness :
    has_more_agents exDuo = true
    ∧ ((boot_current_agent exDuo).1).current_agent_index = 1 := by
  have h : has_more_agents exDuo = true := by decide
  have hc := C7_boot_advances_and_distinguishes exDuo h
  exact ⟨h, hc.1⟩

/-- Promote never touches the transcript dict of an agent that was never
messaged (no entry exists, so the `if idx in self.agent_transcripts`
guard skips the flag assignment). -/
theorem promote_fst_transcripts (s : FlowState) :
    lookupT s.current_agent_index s.agent_transcripts = none →
    ((promote_current_agent s).1).agent_transcripts = s.agent_transcripts
    ∧ ((promote_current_agent s).1).agents = s.agents := by
  intro hnone
  cases hh : has_more_agents s with
  | false => rw [promote_fst_of_no_agent s hh]; exact ⟨rfl, rfl⟩
  | true =>
    rw [promote_fst_of_has_more s hh]
    exact ⟨modifyT_of_lookupT_none _ _ _ hnone, rfl⟩

/-- `get_promoted_agents` reads only the agent list and the transcript
dict. -/
theorem get_promoted_agents_congr (s s' : FlowState)
    (hag : s'.agents = s.agents)
    (htr : s'.agent_transcripts = s.agent_transcripts) :
    get_promoted_agents s' = get_promoted_agents s := by
  unfold get_promoted_agents
  rw [hag, htr]

/-- Any number of promotes starting from an empty transcript dict leaves
it empty. -/
theorem promotes_keep_transcripts_nil :
    ∀ (n : Nat) (s : FlowState), s.agent_transcripts = [] →
      (applyOps s (List.replicate n Op.promote)).agent_transcripts = [] := by
  intro n
  induction n with
  | zero => intro s hs; simpa [applyOps] using hs
  | succ k ih =>
    intro s hs
    have hstep : ((promote_current_agent s).1).agent_transcripts = [] := by
      cases hh : has_more_agents s with
      | false => rw [promote_fst_of_no_agent s hh]; exact hs
      | true => rw [promote_fst_of_has_more s hh]; rw [hs]; rfl
    have : applyOps s (List.replicate (k + 1) Op.promote)
        = applyOps ((promote_current_agent s).1) (List.replicate k Op.promote) := by
      simp [List.replicate_succ, applyOps, applyOp]
    rw [this]
    exact ih _ hstep

/-- Claim C8: promoting an agent to which no message was ever sent records
nothing: the transcript dict (created lazily on first handled message) is
unchanged, so `get_promoted_agents` is unchanged too; in particular,
promoting every agent of a fresh orchestrator without sending any messages
leaves the transcript dict empty and zero agents promoted. -/
theorem C8_promote_unmessaged :
    (∀ s : FlowState, lookupT s.current_agent_index s.agent_transcripts = none →
        ((promote_current_agent s).1).agent_transcripts = s.agent_transcripts
      ∧ get_promoted_agents (promote_current_agent s).1 = get_promoted_agents s)
    ∧ (∀ agents : List AgentInfo,
        (applyOps (initState agents) (List.replicate agents.length Op.promote)).agent_transcripts = []
      ∧ get_promoted_agents
          (applyOps (initState agents) (List.replicate agents.length Op.promote)) = []) := by
  constructor
  · intro s hnone
    obtain ⟨htr, hag⟩ := promote_fst_transcripts s hnone
    exact ⟨htr, get_promoted_agents_congr s _ hag htr⟩
  · intro agents
    have hnil := promotes_keep_transcripts_nil agents.length (initState agents) rfl
    refine ⟨hnil, ?_⟩
    unfold get_promoted_agents
    rw [hnil]
    rfl

/-- Claim C8 witness: a fresh two-agent orchestrator, promoted twice with
no messages, ends with an empty transcript dict and no promoted agents. -/
theorem C8_promote_unmessaged_witness :
    lookupT 0 (initState [exAgentA, exAgentB]).agent_transcripts = none
    ∧ ((promote_current_agent (initState [exAgentA, exAgentB])).1).agent_transcripts = []
    ∧ get_promoted_agents
        (applyOps (initState [exAgentA, exAgentB]) (List.replicate 2 Op.promote)) = [] := by
  have h1 := (C8_promote_unmessaged.1 (initState [exAgentA, exAgentB]) rfl).1
  have h2 := (C8_promote_unmessaged.2 [exAgentA, exAgentB]).2
  exact ⟨rfl, h1, h2⟩

/-- Claim C3: the first `handle_individual_message` call on a freshly
constructed orchestrator (with at least one agent) stores its message
argument verbatim as `original_prompt`, and no operation whatsoever
(further messages, promote, boot, restart, auto-send, transition) ever
changes a stored `original_prompt` afterwards. -/
theorem C3_original_prompt_immutable :
    (∀ (agents : List AgentInfo) (m : String) (c : CallResult), agents ≠ [] →
        ((handle_individual_message (initState agents) m c).1).original_prompt = some m)
    ∧ (∀ (s : FlowState) (op : Op) (p : String), s.original_prompt = some p →
        (applyOp s op).original_prompt = some p) := by
  constructor
  · intro agents m c hne
    cases agents with
    | nil => exact absurd rfl hne
    | cons a rest =>
      cases c <;> simp [handle_individual_message, initState, has_more_agents, lookupT]
  · intro s op p h
    cases op with
    | msg t c => exact handle_fst_prompt s t c p h
    | promote =>
      show ((promote_current_agent s).1).original_prompt = some p
      cases hh : has_more_agents s with
      | true => rw [promote_fst_of_has_more s hh]; exact h
      | false => rw [promote_fst_of_no_agent s hh]; exact h
    | boot =>
      show ((boot_current_agent s).1).original_prompt = some p
      cases hh : has_more_agents s with
      | true => rw [boot_fst_of_has_more s hh]; exact h
      | false => rw [boot_fst_of_no_agent s hh]; exact h
    | restart =>
      show ((restart_current_agent s).1).original_prompt = some p
      cases hh : has_more_agents s with
      | true => rw [restart_fst_of_has_more s hh]; exact h
      | false => rw [restart_fst_of_no_agent s hh]; exact h
    | autoSend c =>
      show ((auto_send_original_prompt s c).1).original_prompt = some p
      unfold auto_send_original_prompt
      rw [h]
      dsimp only
      split
      · exact handle_fst_prompt s p c p h
      · exact h
    | transition =>
      show ((transition_to_team_phase s).1).original_prompt = some p
      rcases transition_fst s with heq | ⟨heq, _⟩ <;> rw [heq] <;> exact h

/-- Claim C3 witness: the first message of a fresh one-agent orchestrator
becomes the prompt, and a promote on the concrete messaged state keeps
it. -/
theorem C3_original_prompt_witness :
    ([exAgentA] : List AgentInfo) ≠ []
    ∧ ((handle_individual_message (initState [exAgentA]) "hello" (.ok "hi")).1).original_prompt
        = some "hello"
    ∧ exDuo.original_prompt = some "What is entropy?"
    ∧ (applyOp exDuo Op.promote).original_prompt = some "What is entropy?" := by
  refine ⟨by decide, ?_, by decide, ?_⟩
  · exact C3_original_prompt_immutable.1 [exAgentA] "hello" (.ok "hi") (by decide)
  · exact C3_original_prompt_immutable.2 exDuo Op.promote "What is entropy?" (by decide)

/-- Claim C4: `current_agent_index` never decreases under any operation;
promote and boot increase it by exactly one when a current agent exists
and leave it unchanged otherwise; all other operations leave it unchanged.
The phase changes only from a non-"team" phase to "team", only via
`transition_to_team_phase`, and (for any state whose index is bounded by
the agent count, an invariant of all reachable states proved in the last
conjunct) only when `current_agent_index` equals the agent count and at
least two transcripts are promoted; once in "team" phase it stays there,
so the flip happens exactly once. -/
theorem C4_index_monotone_phase_once :
    (∀ (s : FlowState) (op : Op),
        s.current_agent_index ≤ (applyOp s op).current_agent_index)
    ∧ (∀ s : FlowState, has_more_agents s = true →
        (applyOp s Op.promote).current_agent_index = s.current_agent_index + 1
        ∧ (applyOp s Op.boot).current_agent_index = s.current_agent_index + 1)
    ∧ (∀ s : FlowState, has_more_agents s = false →
        (applyOp s Op.promote).current_agent_index = s.current_agent_index
        ∧ (applyOp s Op.boot).current_agent_index = s.current_agent_index)
    ∧ (∀ (s : FlowState) (m : String) (c : CallResult),
        (applyOp s (Op.msg m c)).current_agent_index = s.current_agent_index)
    ∧ (∀ (s : FlowState) (c : CallResult),
        (applyOp s (Op.autoSend c)).current_agent_index = s.current_agent_index)
    ∧ (∀ s : FlowState,
        (applyOp s Op.restart).current_agent_index = s.current_agent_index
        ∧ (applyOp s Op.transition).current_agent_index = s.current_agent_index)
    ∧ (∀ (s : FlowState) (op : Op), s.current_agent_index ≤ s.agents.length →
        (applyOp s op).phase ≠ s.phase →
        op = Op.transition ∧ s.phase ≠ "team" ∧ (applyOp s op).phase = "team"
        ∧ s.current_agent_index = s.agents.length
        ∧ 2 ≤ (get_promoted_agents s).length)
    ∧ (∀ (s : FlowState) (op : Op), s.phase = "team" → (applyOp s op).phase = "team")
    ∧ (∀ (agents : List AgentInfo) (ops : List Op),
        (applyOps (initState agents) ops).current_agent_index
          ≤ (applyOps (initState agents) ops).agents.length
        ∧ ((applyOps (initState agents) ops).phase = "individual"
            ∨ (applyOps (initState agents) ops).phase = "team")) := by
  have hpb : ∀ s : FlowState, has_more_agents s = true →
      (applyOp s Op.promote).current_agent_index = s.current_agent_index + 1
      ∧ (applyOp s Op.boot).current_agent_index = s.current_agent_index + 1 := by
    intro s hh
    constructor
    · show ((promote_current_agent s).1).current_agent_index = _
      rw [promote_fst_of_has_more s hh]
    · show ((boot_current_agent s).1).current_agent_index = _
      rw [boot_fst_of_has_more s hh]
  refine ⟨?_, hpb, ?_, ?_, ?_, ?_, ?_, ?_, ?_⟩
  · intro s op
    rcases applyOp_index s op with h | ⟨_, _, h⟩ <;> omega
  · intro s hh
    constructor
    · show ((promote_current_agent s).1).current_agent_index = _
      rw [promote_fst_of_no_agent s hh]
    · show ((boot_current_agent s).1).current_agent_index = _
      rw [boot_fst_of_no_agent s hh]
  · intro s m c
    exact (handle_fst_fields s m c).1
  · intro s c
    exact (autoSend_fst_fields s c).1
  · intro s
    constructor
    · show ((restart_current_agent s).1).current_agent_index = _
      cases hh : has_more_agents s with
      | true => rw [restart_fst_of_has_more s hh]
      | false => rw [restart_fst_of_no_agent s hh]
    · show ((transition_to_team_phase s).1).current_agent_index = _
      rcases transition_fst s with h | ⟨h, _⟩ <;> rw [h]
  · intro s op hle hne
    rcases applyOp_phase s op with h | ⟨hop, hteam, hph, hmore, hlen⟩
    · exact absurd h hne
    · have hge : ¬(s.current_agent_index < s.agents.length) := by
        intro hlt
        rw [(has_more_iff s).2 hlt] at hmore
        exact absurd hmore (by decide)
      exact ⟨hop, hteam, hph, by omega, hlen⟩
  · intro s op h
    rcases applyOp_phase s op with heq | ⟨_, _, heq, _, _⟩
    · rw [heq]; exact h
    · exact heq
  · intro agents ops
    exact applyOps_inv ops (initState agents) (by simp [initState]) (Or.inl rfl)

/-- Claim C4 witness: on the concrete messaged two-agent state a promote
advances the index by one, and a fresh two-agent orchestrator keeps its
invariants after a promote. -/
theorem C4_index_monotone_witness :
    has_more_agents exDuo = true
    ∧ (applyOp exDuo Op.promote).current_agent_index = exDuo.current_agent_index + 1
    ∧ (applyOps (initState [exAgentA, exAgentB]) [Op.promote]).current_agent_index
        ≤ (applyOps (initState [exAgentA, exAgentB]) [Op.promote]).agents.length := by
  have h : has_more_agents exDuo = true := by decide
  exact ⟨h, (C4_index_monotone_phase_once.2.1 exDuo h).1,
    (C4_index_monotone_phase_once.2.2.2.2.2.2.2.2 [exAgentA, exAgentB] [Op.promote]).1⟩

/-- A sequence of promote/boot operations short enough to stay within the
agent list advances the index by its length and preserves phase and
agents. -/
theorem applyOps_cover : ∀ (ops : List Op) (s : FlowState),
    (∀ op ∈ ops, op = Op.promote ∨ op = Op.boot) →
    s.current_agent_index + ops.length ≤ s.agents.length →
    (applyOps s ops).current_agent_index = s.current_agent_index + ops.length
    ∧ (applyOps s ops).phase = s.phase
    ∧ (applyOps s ops).agents = s.agents := by
  intro ops
  induction ops with
  | nil =>
    intro s _ _
    exact ⟨by simp [applyOps], rfl, rfl⟩
  | cons op rest ih =>
    intro s hmem hlen
    have hop := hmem op (List.mem_cons_self op rest)
    simp only [List.length_cons] at hlen
    have hh : has_more_agents s = true := (has_more_iff s).2 (by omega)
    have hstep_idx : (applyOp s op).current_agent_index = s.current_agent_index + 1 := by
      rcases hop with h | h <;> subst h
      · show ((promote_current_agent s).1).current_agent_index = _
        rw [promote_fst_of_has_more s hh]
      · show ((boot_current_agent s).1).current_agent_index = _
        rw [boot_fst_of_has_more s hh]
    have hstep_phase : (applyOp s op).phase = s.phase := by
      rcases hop with h | h <;> subst h
      · exact promote_fst_phase s
      · exact boot_fst_phase s
    have hstep_ag : (applyOp s op).agents = s.agents := applyOp_agents s op
    have hmem' : ∀ o ∈ rest, o = Op.promote ∨ o = Op.boot :=
      fun o ho => hmem o (List.mem_cons_of_mem _ ho)
    have hlen' : (applyOp s op).current_agent_index + rest.length
        ≤ (applyOp s op).agents.length := by
      rw [hstep_idx, hstep_ag]
      omega
    have hrest := ih (applyOp s op) hmem' hlen'
    have happ : applyOps s (op :: rest) = applyOps (applyOp s op) rest := by
      simp [applyOps, List.foldl_cons]
    rw [happ]
    refine ⟨?_, ?_, ?_⟩
    · rw [hrest.1, hstep_idx]
      simp only [List.length_cons]
      omega
    · rw [hrest.2.1, hstep_phase]
    · rw [hrest.2.2, hstep_ag]

/-- On a state that is not in team phase and has no agents remaining,
`transition_to_team_phase` returns a result whose success is exactly
"at least two promoted agents", and never raises. -/
theorem transition_result_of_completed (s : FlowState)
    (hphase : ¬s.phase = "team") (hmore : has_more_agents s = false) :
    ∃ r, (transition_to_team_phase s).2 = Except.ok r
      ∧ (r.success = true ↔ 2 ≤ (get_promoted_agents s).length) := by
  have hmore' : ¬has_more_agents s = true := by
    rw [hmore]
    decide
  unfold transition_to_team_phase
  rw [if_neg hphase, if_neg hmore']
  dsimp only
  split
  · rename_i hemp
    rw [List.isEmpty_iff] at hemp
    refine ⟨_, rfl, ?_⟩
    rw [hemp]
    constructor
    · intro h
      exact absurd h (show ¬(false = true) by decide)
    · intro h
      simp at h
  · split
    · rename_i hlt
      refine ⟨_, rfl, ?_⟩
      constructor
      · intro h
        exact absurd h (show ¬(false = true) by decide)
      · intro h
        exact absurd h (by omega)
    · rename_i hemp hlt
      have hempty : ¬(get_promoted_agents s).isEmpty = true := hemp
      have hcreate : ∃ tm, create_team_with_context (get_promoted_agents s) =
          .ok tm := by
        simp only [create_team_with_context]
        split
        · rename_i hcond
          rw [Bool.or_eq_true] at hcond
          rcases hcond with h1 | h2
          · exact absurd h1 hempty
          · exact absurd (of_decide_eq_true h2) hlt
        · exact ⟨_, rfl⟩
      obtain ⟨tm, hcreate⟩ := hcreate
      rw [hcreate]
      exact ⟨_, rfl, ⟨fun _ => by omega, fun _ => rfl⟩⟩

/-- `transition_to_team_phase` never raises, and every failing call
returns `success = false` with a non-empty message and the state exactly
unchanged. -/
theorem transition_failure_frame (s : FlowState) :
    ∃ r, (transition_to_team_phase s).2 = Except.ok r
      ∧ (r.success = false → (transition_to_team_phase s).1 = s ∧ r.message ≠ "") := by
  unfold transition_to_team_phase
  split
  · exact ⟨_, rfl, fun _ =>
      ⟨rfl, show ("Already in team phase" : String) ≠ "" by decide⟩⟩
  · split
    · exact ⟨_, rfl, fun _ =>
        ⟨rfl, show ("Cannot transition to team phase - agents still need promotion" : String) ≠ "" by decide⟩⟩
    · dsimp only
      split
      · exact ⟨_, rfl, fun _ =>
          ⟨rfl, show ("Cannot start team debate - no agents were promoted" : String) ≠ "" by decide⟩⟩
      · split
        · exact ⟨_, rfl, fun _ =>
            ⟨rfl, show ("Cannot start team debate - need at least 2 promoted agents" : String) ≠ "" by decide⟩⟩
        · rename_i hemp hlt
          have hcreate : ∃ tm, create_team_with_context (get_promoted_agents s) =
              .ok tm := by
            simp only [create_team_with_context]
            split
            · rename_i hcond
              rw [Bool.or_eq_true] at hcond
              rcases hcond with h1 | h2
              · exact absurd h1 hemp
              · exact absurd (of_decide_eq_true h2) hlt
            · exact ⟨_, rfl⟩
          obtain ⟨tm, hcreate⟩ := hcreate
          rw [hcreate]
          exact ⟨_, rfl, fun hf => absurd hf (show ¬(true = false) by decide)⟩

/-- Claim C1: for every sequence of promote/boot operations that covers
every agent exactly once (one operation per agent, each acting on the
then-current agent), `transition_to_team_phase` succeeds iff at least two
agents ended up promoted; every failing transition (wrong phase, agents
remaining, or fewer than two promoted) returns a structured
`success = false` result with a non-empty message, raises no exception,
and leaves the state exactly unchanged. -/
theorem C1_transition_iff_two_promoted (s0 : FlowState) (ops : List Op)
    (hphase : s0.phase = "individual")
    (hidx : s0.current_agent_index = 0)
    (hlen : ops.length = s0.agents.length)
    (hmem : ∀ op ∈ ops, op = Op.promote ∨ op = Op.boot) :
    (∃ r, (transition_to_team_phase (applyOps s0 ops)).2 = Except.ok r
      ∧ (r.success = true ↔ 2 ≤ (get_promoted_agents (applyOps s0 ops)).length)
      ∧ (r.success = false →
          (transition_to_team_phase (applyOps s0 ops)).1 = applyOps s0 ops
          ∧ r.message ≠ ""))
    ∧ (∀ s : FlowState, ∃ r, (transition_to_team_phase s).2 = Except.ok r
        ∧ (r.success = false →
            (transition_to_team_phase s).1 = s ∧ r.message ≠ "")) := by
  refine ⟨?_, transition_failure_frame⟩
  have hcov := applyOps_cover ops s0 hmem (by omega)
  have hidx' : (applyOps s0 ops).current_agent_index = (applyOps s0 ops).agents.length := by
    rw [hcov.1, hcov.2.2, hidx, hlen]
    omega
  have hmore : has_more_agents (applyOps s0 ops) = false := by
    simp [has_more_agents, hidx']
  have hteam : ¬(applyOps s0 ops).phase = "team" := by
    rw [hcov.2.1, hphase]
    decide
  obtain ⟨r, hr, hiff⟩ := transition_result_of_completed _ hteam hmore
  obtain ⟨r2, hr2, hfail⟩ := transition_failure_frame (applyOps s0 ops)
  have hrr : r2 = r := by
    rw [hr] at hr2
    exact (Except.ok.inj hr2).symm
  subst hrr
  exact ⟨r2, hr, hiff, hfail⟩

/-- Claim C1 witness: a fresh two-agent orchestrator promoted twice with
no messages sent satisfies the hypotheses; the transition then fails
(no transcript was ever created, so nothing is promoted) with the state
unchanged. -/
theorem C1_transition_witness :
    (initState [exAgentA, exAgentB]).phase = "individual"
    ∧ (initState [exAgentA, exAgentB]).current_agent_index = 0
    ∧ ([Op.promote, Op.promote] : List Op).length = [exAgentA, exAgentB].length
    ∧ (∀ op ∈ ([Op.promote, Op.promote] : List Op), op = Op.promote ∨ op = Op.boot)
    ∧ (∃ r, (transition_to_team_phase
          (applyOps (initState [exAgentA, exAgentB]) [Op.promote, Op.promote])).2
            = Except.ok r
        ∧ (r.success = true ↔ 2 ≤ (get_promoted_agents
            (applyOps (initState [exAgentA, exAgentB]) [Op.promote, Op.promote])).length)) := by
  have hmem : ∀ op ∈ ([Op.promote, Op.promote] : List Op),
      op = Op.promote ∨ op = Op.boot := by decide
  have h := C1_transition_iff_two_promoted (initState [exAgentA, exAgentB])
    [Op.promote, Op.promote] rfl rfl rfl hmem
  obtain ⟨⟨r, hr, hiff, _⟩, _⟩ := h
  exact ⟨rfl, rfl, rfl, hmem, r, hr, hiff⟩

/-! Context-assembly lemmas. -/

/-- Iterating keys and looking each up is the same as iterating the looked
up (key, value) pairs. -/
theorem flatMap_lookup_eq (l : TMap) : ∀ ks : List Nat,
    (ks.flatMap (fun k =>
      match lookupT k l with
      | some t => transcriptSection t
      | none => []))
    = (ks.filterMap (fun k => (lookupT k l).map (fun t => (k, t)))).flatMap
        (fun kt => transcriptSection kt.2) := by
  intro ks
  induction ks with
  | nil => rfl
  | cons k rest ih =>
    cases h : lookupT k l with
    | none => simp [List.flatMap_cons, List.filterMap_cons, h, ih]
    | some t => simp [List.flatMap_cons, List.filterMap_cons, h, ih]

/-- Only promoted transcripts with at least one exchange contribute a
section, and a contributing section is a header followed by the exchange
lines. -/
theorem transcriptSection_eq (t : AgentTranscript) :
    transcriptSection t =
      if (t.promoted && !t.messages.isEmpty) = true then
        ("\n--- " ++ t.display_name ++ " Conversation ---") ::
          t.messages.flatMap (exchangeLines t.display_name)
      else [] := rfl

theorem flatMap_section_eq_filter : ∀ entries : TMap,
    entries.flatMap (fun kt => transcriptSection kt.2)
    = (entries.filter (fun kt => kt.2.promoted && !kt.2.messages.isEmpty)).flatMap
        (fun kt => ("\n--- " ++ kt.2.display_name ++ " Conversation ---") ::
          kt.2.messages.flatMap (exchangeLines kt.2.display_name)) := by
  intro entries
  induction entries with
  | nil => rfl
  | cons kt rest ih =>
    rw [List.flatMap_cons, ih, List.filter_cons]
    by_cases hp : (kt.2.promoted && !kt.2.messages.isEmpty) = true
    · rw [if_pos hp, List.flatMap_cons, transcriptSection_eq, if_pos hp, List.cons_append]
    · rw [if_neg hp, transcriptSection_eq, if_neg hp, List.nil_append]

theorem filterMap_congr_mem {α β : Type} : ∀ (l : List α) (f g : α → Option β),
    (∀ x ∈ l, f x = g x) → l.filterMap f = l.filterMap g := by
  intro l
  induction l with
  | nil => intro f g _; rfl
  | cons x rest ih =>
    intro f g h
    have hx := h x (List.mem_cons_self x rest)
    have hrest := ih f g (fun y hy => h y (List.mem_cons_of_mem _ hy))
    simp only [List.filterMap_cons, hx, hrest]

/-- With distinct keys, looking every key of an association list back up
reproduces the list. -/
theorem filterMap_keys_self : ∀ l : TMap, (l.map Prod.fst).Nodup →
    (l.map Prod.fst).filterMap (fun k => (lookupT k l).map (fun t => (k, t))) = l := by
  intro l
  induction l with
  | nil => intro _; rfl
  | cons kt rest ih =>
    obtain ⟨k, t⟩ := kt
    intro hnd
    rw [List.map_cons] at hnd
    have hk : k ∉ rest.map Prod.fst := (List.nodup_cons.1 hnd).1
    have hnd' : (rest.map Prod.fst).Nodup := (List.nodup_cons.1 hnd).2
    have hhead : lookupT k ((k, t) :: rest) = some t := by simp [lookupT]
    have hcong : ∀ k' ∈ rest.map Prod.fst,
        (lookupT k' ((k, t) :: rest)).map (fun t' => (k', t'))
          = (lookupT k' rest).map (fun t' => (k', t')) := by
      intro k' hk'
      have : k ≠ k' := fun he => hk (he ▸ hk')
      simp [lookupT, this]
    simp only [List.map_cons, List.filterMap_cons, hhead]
    rw [filterMap_congr_mem _ _ _ hcong, ih hnd']
    rfl

/-- With distinct keys, the sorted-key iteration of the transcript dict is
a permutation of the dict itself. -/
theorem orderedEntries_perm (l : TMap) (h : (l.map Prod.fst).Nodup) :
    ((sortedKeys l).filterMap (fun k => (lookupT k l).map (fun t => (k, t)))).Perm l := by
  have hperm : (sortedKeys l).Perm (l.map Prod.fst) := List.perm_insertionSort _ _
  have h2 := hperm.filterMap (fun k => (lookupT k l).map (fun t => (k, t)))
  rw [filterMap_keys_self l h] at h2
  exact h2

/-- The keys of the looked-up pairs form a sublist of the iterated key
list. -/
theorem filterMap_lookup_keys_sublist (l : TMap) : ∀ ks : List Nat,
    ((ks.filterMap (fun k => (lookupT k l).map (fun t => (k, t)))).map Prod.fst).Sublist ks := by
  intro ks
  induction ks with
  | nil => simp
  | cons k rest ih =>
    cases h : lookupT k l with
    | none =>
      simp only [List.filterMap_cons, h, Option.map_none]
      exact ih.cons k
    | some t =>
      simp only [List.filterMap_cons, h, Option.map_some, List.map_cons]
      exact ih.cons₂ k

theorem sortedKeys_sorted (l : TMap) : (sortedKeys l).Sorted (· ≤ ·) :=
  List.sorted_insertionSort _ _

/-- Claim C2 (amended): for any state with distinct transcript keys (an
invariant of reachable states) and a non-empty original prompt, the
assembled context is the "\n"-join of: the prompt part, then exactly one
section per promoted transcript with at least one exchange — a header
followed by alternating "User:"/display-name lines — iterated in
ascending agent-index order, and finally the fixed Begin-Team-Debate
marker.  Booted (un-promoted) transcripts contribute zero sections even
when they contain exchanges; promoted transcripts whose message list is
empty also contribute zero sections (this last qualification corrects the
claim). -/
theorem C2_assemble_sections (s : FlowState) (p : String)
    (hnd : (s.agent_transcripts.map Prod.fst).Nodup)
    (hp : s.original_prompt = some p) (hp0 : p ≠ "") :
    assemble_comprehensive_context s = String.intercalate "\n" (contextParts s p)
    ∧ contextParts s p
        = promptPart p ::
            ((orderedEntries s).filter
              (fun kt => kt.2.promoted && !kt.2.messages.isEmpty)).flatMap
              (fun kt => ("\n--- " ++ kt.2.display_name ++ " Conversation ---") ::
                kt.2.messages.flatMap (exchangeLines kt.2.display_name))
            ++ [debateMarker]
    ∧ (((orderedEntries s).filter
          (fun kt => kt.2.promoted && !kt.2.messages.isEmpty)).map Prod.fst).Sorted (· ≤ ·)
    ∧ ((orderedEntries s).filter
          (fun kt => kt.2.promoted && !kt.2.messages.isEmpty)).length
        = (s.agent_transcripts.filter
            (fun kt => kt.2.promoted && !kt.2.messages.isEmpty)).length := by
  refine ⟨?_, ?_, ?_, ?_⟩
  · unfold assemble_comprehensive_context
    rw [hp]
    dsimp only
    rw [if_neg hp0]
  · unfold contextParts orderedEntries
    rw [flatMap_lookup_eq, flatMap_section_eq_filter]
  · have hsub1 : (((orderedEntries s).filter
        (fun kt => kt.2.promoted && !kt.2.messages.isEmpty)).map Prod.fst).Sublist
          ((orderedEntries s).map Prod.fst) :=
      (List.filter_sublist _).map Prod.fst
    have hsub2 : ((orderedEntries s).map Prod.fst).Sublist (sortedKeys s.agent_transcripts) :=
      filterMap_lookup_keys_sublist s.agent_transcripts _
    exact (sortedKeys_sorted s.agent_transcripts).sublist (hsub1.trans hsub2)
  · have hperm : (orderedEntries s).Perm s.agent_transcripts :=
      orderedEntries_perm s.agent_transcripts hnd
    exact (hperm.filter _).length_eq

/-- Claim C2 counterexample: a reachable state (one agent, whose only
round failed with a quota error, then promoted) has one promoted agent
but its assembled context contains zero transcript sections — the context
parts are just the prompt part and the closing marker. -/
theorem C2_counterexample_promoted_empty :
    (get_promoted_agents exQuotaPromoted).length = 1
    ∧ exQuotaPromoted.original_prompt = some "q"
    ∧ contextParts exQuotaPromoted "q" = [promptPart "q", debateMarker] := by
  decide

/-- Claim C2 witness: the concrete fully promoted two-agent state
satisfies the hypotheses, and its context parts decompose into prompt,
two sections in setup order, and the marker. -/
theorem C2_assemble_sections_witness :
    (exDuoPromoted.agent_transcripts.map Prod.fst).Nodup
    ∧ exDuoPromoted.original_prompt = some "What is entropy?"
    ∧ ("What is entropy?" : String) ≠ ""
    ∧ contextParts exDuoPromoted "What is entropy?"
        = promptPart "What is entropy?" ::
            ((orderedEntries exDuoPromoted).filter
              (fun kt => kt.2.promoted && !kt.2.messages.isEmpty)).flatMap
              (fun kt => ("\n--- " ++ kt.2.display_name ++ " Conversation ---") ::
                kt.2.messages.flatMap (exchangeLines kt.2.display_name))
            ++ [debateMarker] := by
  have hnd : (exDuoPromoted.agent_transcripts.map Prod.fst).Nodup := by decide
  have hp : exDuoPromoted.original_prompt = some "What is entropy?" := by decide
  have hp0 : ("What is entropy?" : String) ≠ "" := by decide
  exact ⟨hnd, hp, hp0,
    (C2_assemble_sections exDuoPromoted "What is entropy?" hnd hp hp0).2.1⟩

/-! Claim theorems: parser, cost, counters. -/

/-- Claim C10: `parse_input` is total over all string inputs; an empty or
whitespace-only line is classified as `empty`, a line whose content starts
with "/" is classified as `command` with name the first whitespace token
minus its "/" prefix and args the remaining tokens, and every other line
is classified as `message` carrying the trimmed text.  The three guard
conditions are mutually exclusive, so exactly one classification applies
to every input. -/
theorem C10_parse_input_total_classification (s : String) :
    (s.trim = "" ∧ parse_input s = .empty s)
    ∨ (s.trim ≠ "" ∧ s.trim.startsWith "/" = true ∧
        parse_input s =
          .command (((pySplit s.trim).headD "").drop 1) (pySplit s.trim).tail s)
    ∨ (s.trim ≠ "" ∧ s.trim.startsWith "/" = false ∧
        parse_input s = .message s.trim s) := by
  by_cases h : s.trim = ""
  · exact Or.inl ⟨h, by simp [parse_input, h]⟩
  · by_cases h2 : s.trim.startsWith "/"
    · exact Or.inr (Or.inl ⟨h, h2, by simp [parse_input, h, h2]⟩)
    · refine Or.inr (Or.inr ⟨h, ?_, by simp [parse_input, h, h2]⟩)
      simpa using h2

/-- Folding the per-model accumulation of `calculate_total_cost` equals the
accumulator plus the sum of the per-configured-model costs. -/
theorem foldl_cost (si so : Rat) (g : String → Option ModelConfig) :
    ∀ (l : List String) (a : Rat),
      (l.foldl (fun total_cost model_name =>
        match g model_name with
        | some model_config => total_cost + calculate_model_cost model_config si so
        | none => total_cost) a)
      = a + ((l.filterMap g).map (fun mc => calculate_model_cost mc si so)).sum := by
  intro l
  induction l with
  | nil => simp
  | cons hd tl ih =>
    intro a
    cases hg : g hd with
    | none => simp [List.foldl_cons, hg, ih]
    | some mc => simp [List.foldl_cons, hg, ih, add_assoc]

/-- Claim C9: for a non-empty configured model list, the total cost is the
sum, over the models that have a configuration, of
`((total_input_tokens / number_of_models) / 1000000) * input_cost +
((total_output_tokens / number_of_models) / 1000000) * output_cost`; the
token totals are divided evenly by the length of the whole model list,
models without a configuration counting in the divisor but contributing no
term. -/
theorem C9_total_cost_even_split (stats : StatsRecord) (models : List String)
    (g : String → Option ModelConfig) (_h : models ≠ []) :
    calculate_total_cost stats models g =
      ((models.filterMap g).map (fun mc =>
        ((stats.total_input_tokens / (models.length : Rat)) / 1000000) * mc.input_cost +
        ((stats.total_output_tokens / (models.length : Rat)) / 1000000) * mc.output_cost)).sum := by
  unfold calculate_total_cost
  rw [foldl_cost]
  simp [calculate_model_cost]

/-- Claim C9 witness: two configured models at concrete token totals;
each is charged half of both token totals, giving 21 per model. -/
theorem C9_total_cost_even_split_witness :
    (["m1", "m2"] : List String) ≠ [] ∧
    calculate_total_cost ⟨4000000, 2000000⟩ ["m1", "m2"]
      (fun _ => some ⟨3, 15⟩) = 42 := by
  refine ⟨by decide, ?_⟩
  have h := C9_total_cost_even_split ⟨4000000, 2000000⟩ ["m1", "m2"]
    (fun _ => some ⟨3, 15⟩) (by decide)
  rw [h]
  norm_num [List.filterMap_cons]

/-- One round never decreases any of the four counters. -/
theorem round_counters_mono (c : SessionCounters) (o : InvokeOutcome) :
    c.total_input_tokens ≤ (round_counters c o).total_input_tokens
    ∧ c.total_output_tokens ≤ (round_counters c o).total_output_tokens
    ∧ c.total_tokens ≤ (round_counters c o).total_tokens
    ∧ c.conversation_rounds ≤ (round_counters c o).conversation_rounds := by
  cases o with
  | ok u =>
    cases u with
    | none => simp [round_counters]
    | some ud => simp [round_counters, add_usage_data]
  | quotaError => simp [round_counters]
  | invokeError => simp [round_counters]

/-- Claim C5: the session token counters and conversation-round counter
are monotonically non-decreasing across any sequence of rounds, and a
round that fails with a quota/credits error or any other invocation error
leaves all four counters exactly unchanged (the quota branch returns
before usage recording, other exceptions propagate before it). -/
theorem C5_counters_monotone_and_failure_frame :
    (∀ (c : SessionCounters) (os : List InvokeOutcome),
        c.total_input_tokens ≤ (run_rounds c os).total_input_tokens
      ∧ c.total_output_tokens ≤ (run_rounds c os).total_output_tokens
      ∧ c.total_tokens ≤ (run_rounds c os).total_tokens
      ∧ c.conversation_rounds ≤ (run_rounds c os).conversation_rounds)
    ∧ (∀ (c : SessionCounters) (o : InvokeOutcome),
        o = InvokeOutcome.quotaError ∨ o = InvokeOutcome.invokeError →
        round_counters c o = c) := by
  constructor
  · intro c os
    induction os generalizing c with
    | nil => simp [run_rounds]
    | cons o rest ih =>
      have h1 := round_counters_mono c o
      have h2 := ih (round_counters c o)
      simp only [run_rounds, List.foldl_cons] at h2 ⊢
      exact ⟨le_trans h1.1 h2.1, le_trans h1.2.1 h2.2.1,
        le_trans h1.2.2.1 h2.2.2.1, le_trans h1.2.2.2 h2.2.2.2⟩
  · intro c o h
    rcases h with h | h <;> subst h <;> rfl

/-- Claim C5 witness: a successful round followed by a quota-failed and an
error-failed round, starting from concrete counters. -/
theorem C5_counters_witness :
    (⟨10, 5, 15, 1⟩ : SessionCounters).total_tokens ≤
      (run_rounds ⟨10, 5, 15, 1⟩ [.ok (some ⟨some 10, some 5, some 15⟩), .quotaError]).total_tokens
    ∧ round_counters ⟨10, 5, 15, 1⟩ .quotaError = ⟨10, 5, 15, 1⟩ := by
  exact ⟨(C5_counters_monotone_and_failure_frame.1 ⟨10, 5, 15, 1⟩ _).2.2.1,
    C5_counters_monotone_and_failure_frame.2 ⟨10, 5, 15, 1⟩ _ (Or.inl rfl)⟩

end Superchat
